import Mathlib

/-!
Formal model of the RMR roof-bolt support calculator core
(`streamlit_app.py`): RMR scoring tables, rock-class bucketing,
per-class support plan, derived bolt quantities, and the schematic
bolt-layout generator.  Python floats are modelled as rationals;
Python `round` (ties to even) and `int` (truncation toward zero)
are modelled explicitly.
-/

/-- Rating points for A1, strength of intact rock material (`ucs_ratings`). -/
def ucs_ratings : List ℤ := [15, 12, 7, 4, 2, 1, 0]

/-- Rating points for A2, rock quality designation (`rqd_ratings`). -/
def rqd_ratings : List ℤ := [20, 17, 13, 8, 3]

/-- Rating points for A3, spacing of discontinuities (`spacing_ratings`). -/
def spacing_ratings : List ℤ := [20, 15, 10, 8, 5]

/-- Rating points for A4, condition of discontinuities (`condition_ratings`). -/
def condition_ratings : List ℤ := [30, 25, 20, 10, 0]

/-- Rating points for A5, groundwater conditions (`water_ratings`). -/
def water_ratings : List ℤ := [15, 10, 7, 4, 0]

/-- Point value of the selected A1 option (`a1_rating = ucs_ratings[ucs_index]`). -/
def ucs_rating (i : Fin 7) : ℤ := ucs_ratings.get ⟨i.val, i.isLt⟩

/-- Point value of the selected A2 option (`a2_rating`). -/
def rqd_rating (i : Fin 5) : ℤ := rqd_ratings.get ⟨i.val, i.isLt⟩

/-- Point value of the selected A3 option (`a3_rating`). -/
def spacing_rating (i : Fin 5) : ℤ := spacing_ratings.get ⟨i.val, i.isLt⟩

/-- Point value of the selected A4 option (`a4_rating`). -/
def condition_rating (i : Fin 5) : ℤ := condition_ratings.get ⟨i.val, i.isLt⟩

/-- Point value of the selected A5 option (`a5_rating`). -/
def water_rating (i : Fin 5) : ℤ := water_ratings.get ⟨i.val, i.isLt⟩

/-- Total RMR score: `rmr_value = a1_rating + a2_rating + a3_rating + a4_rating + a5_rating`. -/
def rmr_value (a1 : Fin 7) (a2 a3 a4 a5 : Fin 5) : ℤ :=
  ucs_rating a1 + rqd_rating a2 + spacing_rating a3 + condition_rating a4 + water_rating a5

/-- The five rock mass classes. -/
inductive RockClass : Type where
  | I
  | II
  | III
  | IV
  | V
deriving DecidableEq

/-- Rock class from the RMR score: the if/elif chain on `rmr_value`. -/
def rock_class (rmr : ℤ) : RockClass :=
  if 81 ≤ rmr ∧ rmr ≤ 100 then RockClass.I
  else if 61 ≤ rmr ∧ rmr ≤ 80 then RockClass.II
  else if 41 ≤ rmr ∧ rmr ≤ 60 then RockClass.III
  else if 21 ≤ rmr ∧ rmr ≤ 40 then RockClass.IV
  else RockClass.V

/-- Class description string assigned alongside `rock_class`. -/
def description : RockClass → String
  | RockClass.I => "Very good rock"
  | RockClass.II => "Good rock"
  | RockClass.III => "Fair rock"
  | RockClass.IV => "Poor rock"
  | RockClass.V => "Very poor rock"

/-- Per-class bolt length: `bolt_length = max(floor, excavation_width / divisor)`. -/
def bolt_length : RockClass → ℚ → ℚ
  | RockClass.I, width => max 2.0 (width / 5)
  | RockClass.II, width => max 2.5 (width / 4)
  | RockClass.III, width => max 3.0 (width / 3)
  | RockClass.IV, width => max 4.0 (width / 2.5)
  | RockClass.V, width => max 4.5 (width / 2)

/-- Per-class fixed bolt spacing (`bolt_spacing`). -/
def bolt_spacing : RockClass → ℚ
  | RockClass.I => 2.0
  | RockClass.II => 1.5
  | RockClass.III => 1.2
  | RockClass.IV => 1.0
  | RockClass.V => 0.6

/-- Python `round`: nearest integer, ties go to the even neighbour. -/
def pyRound (q : ℚ) : ℤ :=
  if q - ⌊q⌋ < 1 / 2 then ⌊q⌋
  else if 1 / 2 < q - ⌊q⌋ then ⌊q⌋ + 1
  else if ⌊q⌋ % 2 = 0 then ⌊q⌋ else ⌊q⌋ + 1

/-- `bolts_per_row = max(2, round(width / spacing))` for class I, floor 3 otherwise. -/
def bolts_per_row (c : RockClass) (width : ℚ) : ℤ :=
  if c = RockClass.I then max 2 (pyRound (width / bolt_spacing c))
  else max 3 (pyRound (width / bolt_spacing c))

/-- `rows_per_meter`: 0.5 for class I (spot bolting), `1 / bolt_spacing` otherwise. -/
def rows_per_meter (c : RockClass) : ℚ :=
  if c = RockClass.I then 0.5 else 1 / bolt_spacing c

/-- `bolt_density = bolts_per_row * rows_per_meter`. -/
def bolt_density (c : RockClass) (width : ℚ) : ℚ :=
  (bolts_per_row c width : ℚ) * rows_per_meter c

/-- `total_bolts = bolt_density * tunnel_length`. -/
def total_bolts (c : RockClass) (width len : ℚ) : ℚ :=
  bolt_density c width * len

/-- `total_bolt_length = total_bolts * bolt_length`. -/
def total_bolt_length (c : RockClass) (width len : ℚ) : ℚ :=
  total_bolts c width len * bolt_length c width

/-- Python `int()` applied to a rational: truncation toward zero. -/
def truncInt (q : ℚ) : ℤ := if 0 ≤ q then ⌊q⌋ else ⌈q⌉

/-- Grid row count of the layout generator:
`rows = int(height / spacing) if rock_class in ["IV", "V"] else max(2, int(height / spacing))`. -/
def gridRows (c : RockClass) (height spacing : ℚ) : ℤ :=
  if c = RockClass.IV ∨ c = RockClass.V then truncInt (height / spacing)
  else max 2 (truncInt (height / spacing))

/-- Grid column count: `cols = max(3, int(width / spacing))`. -/
def gridCols (width spacing : ℚ) : ℤ := max 3 (truncInt (width / spacing))

/-- Position of grid cell (row, col):
`x = (col + 0.5) * (width / cols)`, `y = (row + 0.5) * (height / rows)`. -/
def gridPoint (c : RockClass) (width height spacing : ℚ) (row col : ℕ) : ℚ × ℚ :=
  (((col : ℚ) + 0.5) * (width / ((gridCols width spacing : ℤ) : ℚ)),
   ((row : ℚ) + 0.5) * (height / ((gridRows c height spacing : ℤ) : ℚ)))

/-- Bolt positions of `generate_bolt_pattern_image`: class I gets the three
crown spots; other classes get the row-major grid, skipping rows past
index 1 for classes II and III. -/
def boltLayout (c : RockClass) (width height spacing : ℚ) : List (ℚ × ℚ) :=
  if c = RockClass.I then
    [(width / 4, 0.5), (width / 2, 0.5), (3 * width / 4, 0.5)]
  else
    (List.range (gridRows c height spacing).toNat).flatMap fun row =>
      (List.range (gridCols width spacing).toNat).filterMap fun col =>
        if (c = RockClass.II ∨ c = RockClass.III) ∧ 1 < row then none
        else some (gridPoint c width height spacing row col)

/-- Modelled from the spec (layout table of the design document): grid rows
with `floor` in place of truncation, for comparison with `gridRows`. -/
def specRows (c : RockClass) (height spacing : ℚ) : ℤ :=
  if c = RockClass.IV ∨ c = RockClass.V then ⌊height / spacing⌋
  else max 2 ⌊height / spacing⌋

/-- Modelled from the spec: `cols = max(3, floor(width / spacing))`. -/
def specCols (width spacing : ℚ) : ℤ := max 3 ⌊width / spacing⌋

/-- Modelled from the spec: the grid layout for classes II through V, rows and
columns floored, positions `((col + 0.5) * width / cols, (row + 0.5) * height / rows)`
in row-major order, rows past index 1 suppressed for classes II and III. -/
def layoutFromSpec (c : RockClass) (width height spacing : ℚ) : List (ℚ × ℚ) :=
  (List.range (specRows c height spacing).toNat).flatMap fun (row : ℕ) =>
    (List.range (specCols width spacing).toNat).filterMap fun (col : ℕ) =>
      if (c = RockClass.II ∨ c = RockClass.III) ∧ 1 < row then none
      else some (((col : ℚ) + 0.5) * (width / ((specCols width spacing : ℤ) : ℚ)),
                 ((row : ℚ) + 0.5) * (height / ((specRows c height spacing : ℤ) : ℚ)))

lemma truncInt_of_nonneg {q : ℚ} (hq : 0 ≤ q) : truncInt q = ⌊q⌋ := if_pos hq

lemma mem_boltLayout_grid {c : RockClass} (hc : c ≠ RockClass.I) {w h s : ℚ} {p : ℚ × ℚ}
    (hp : p ∈ boltLayout c w h s) :
    ∃ row col : ℕ, row < (gridRows c h s).toNat ∧ col < (gridCols w s).toNat ∧
      ((c = RockClass.II ∨ c = RockClass.III) → row ≤ 1) ∧ p = gridPoint c w h s row col := by
  unfold boltLayout at hp
  rw [if_neg hc] at hp
  simp only [List.mem_flatMap, List.mem_filterMap, List.mem_range] at hp
  obtain ⟨row, hrow, col, hcol, hsome⟩ := hp
  by_cases hskip : (c = RockClass.II ∨ c = RockClass.III) ∧ 1 < row
  · rw [if_pos hskip] at hsome
    exact absurd hsome (by simp)
  · rw [if_neg hskip] at hsome
    refine ⟨row, col, hrow, hcol, fun hcII => ?_, (Option.some.inj hsome).symm⟩
    by_contra hr
    exact hskip ⟨hcII, by omega⟩

lemma gridPoint_mem_boltLayout {c : RockClass} (hc : c ≠ RockClass.I) (w h s : ℚ)
    {row col : ℕ} (hrow : row < (gridRows c h s).toNat) (hcol : col < (gridCols w s).toNat)
    (hskip : (c = RockClass.II ∨ c = RockClass.III) → row ≤ 1) :
    gridPoint c w h s row col ∈ boltLayout c w h s := by
  unfold boltLayout
  rw [if_neg hc]
  simp only [List.mem_flatMap, List.mem_filterMap, List.mem_range]
  refine ⟨row, hrow, col, hcol, ?_⟩
  rw [if_neg ?hno]
  case hno =>
    rintro ⟨hcII, hgt⟩
    exact absurd (hskip hcII) (by omega)

lemma grid_coord_bounds (total : ℚ) (m : ℤ) (k : ℕ) (hk : k < m.toNat) (ht : 0 ≤ total) :
    0 ≤ ((k : ℚ) + 0.5) * (total / (m : ℚ)) ∧ ((k : ℚ) + 0.5) * (total / (m : ℚ)) ≤ total := by
  have hm : 0 < m := by omega
  have hmQ : (0 : ℚ) < (m : ℚ) := by exact_mod_cast hm
  have hkm : (k : ℚ) + 1 ≤ (m : ℚ) := by
    have hki : (k : ℤ) + 1 ≤ m := by omega
    exact_mod_cast hki
  constructor
  · have h1 : (0 : ℚ) ≤ (k : ℚ) + 0.5 := by positivity
    exact mul_nonneg h1 (div_nonneg ht hmQ.le)
  · calc ((k : ℚ) + 0.5) * (total / (m : ℚ))
        ≤ (m : ℚ) * (total / (m : ℚ)) := by
          apply mul_le_mul_of_nonneg_right (by linarith) (div_nonneg ht hmQ.le)
    _ = total := by field_simp

/-- C1: for every five-tuple of valid category choices the RMR score equals
the exact sum of the five selected point values and lies in [0, 100]; the
minimum achievable sum is 8 (attained), so scores below 0 are unreachable. -/
theorem rmr_score_exact_sum_and_bounds :
    (∀ (a1 : Fin 7) (a2 a3 a4 a5 : Fin 5),
      rmr_value a1 a2 a3 a4 a5 =
        ucs_rating a1 + rqd_rating a2 + spacing_rating a3 + condition_rating a4 + water_rating a5 ∧
      0 ≤ rmr_value a1 a2 a3 a4 a5 ∧ rmr_value a1 a2 a3 a4 a5 ≤ 100 ∧
      8 ≤ rmr_value a1 a2 a3 a4 a5) ∧
    (∃ (a1 : Fin 7) (a2 a3 a4 a5 : Fin 5), rmr_value a1 a2 a3 a4 a5 = 8) := by
  decide

/-- C2: class assignment is a total partition with closed boundaries:
scores 81 to 100 give class I, 61 to 80 class II, 41 to 60 class III,
21 to 40 class IV, and every value below 21 (negatives included) class V,
with the listed descriptions. -/
theorem rock_class_partition :
    (∀ v : ℤ,
      (81 ≤ v ∧ v ≤ 100 → rock_class v = RockClass.I) ∧
      (61 ≤ v ∧ v ≤ 80 → rock_class v = RockClass.II) ∧
      (41 ≤ v ∧ v ≤ 60 → rock_class v = RockClass.III) ∧
      (21 ≤ v ∧ v ≤ 40 → rock_class v = RockClass.IV) ∧
      (v < 21 → rock_class v = RockClass.V)) ∧
    description RockClass.I = "Very good rock" ∧ description RockClass.II = "Good rock" ∧
    description RockClass.III = "Fair rock" ∧ description RockClass.IV = "Poor rock" ∧
    description RockClass.V = "Very poor rock" := by
  refine ⟨fun v => ?_, rfl, rfl, rfl, rfl, rfl⟩
  unfold rock_class
  refine ⟨fun hv => ?_, fun hv => ?_, fun hv => ?_, fun hv => ?_, fun hv => ?_⟩ <;>
    split_ifs <;> first | rfl | (exfalso; omega)

/-- Witness for C2 at the closed boundary 81. -/
theorem rock_class_partition_witness : rock_class 81 = RockClass.I :=
  ((rock_class_partition.1 81).1) ⟨by norm_num, by norm_num⟩

/-- C3: the support planner returns exactly the per-class bolt length formula
and fixed bolt spacing of the table. -/
theorem support_plan_table (w : ℚ) :
    (bolt_length RockClass.I w = max 2.0 (w / 5) ∧ bolt_spacing RockClass.I = 2.0) ∧
    (bolt_length RockClass.II w = max 2.5 (w / 4) ∧ bolt_spacing RockClass.II = 1.5) ∧
    (bolt_length RockClass.III w = max 3.0 (w / 3) ∧ bolt_spacing RockClass.III = 1.2) ∧
    (bolt_length RockClass.IV w = max 4.0 (w / 2.5) ∧ bolt_spacing RockClass.IV = 1.0) ∧
    (bolt_length RockClass.V w = max 4.5 (w / 2) ∧ bolt_spacing RockClass.V = 0.6) :=
  ⟨⟨rfl, rfl⟩, ⟨rfl, rfl⟩, ⟨rfl, rfl⟩, ⟨rfl, rfl⟩, ⟨rfl, rfl⟩⟩

/-- C4: the derived quantities satisfy exactly their defining equations:
bolts per row with per-class floor, rows per meter, bolt density,
total bolts and total bolt length. -/
theorem derived_quantities_exact (c : RockClass) (w len : ℚ) :
    bolts_per_row c w = (if c = RockClass.I then max 2 (pyRound (w / bolt_spacing c))
      else max 3 (pyRound (w / bolt_spacing c))) ∧
    rows_per_meter c = (if c = RockClass.I then 0.5 else 1 / bolt_spacing c) ∧
    bolt_density c w = (bolts_per_row c w : ℚ) * rows_per_meter c ∧
    total_bolts c w len = bolt_density c w * len ∧
    total_bolt_length c w len = total_bolts c w len * bolt_length c w :=
  ⟨rfl, rfl, rfl, rfl, rfl⟩

/-- C5: for class I the layout is exactly the three crown positions
(width/4, 0.5), (width/2, 0.5), (3 width/4, 0.5), in that order,
independent of height and spacing. -/
theorem class_one_layout (w h s : ℚ) :
    boltLayout RockClass.I w h s = [(w / 4, 0.5), (w / 2, 0.5), (3 * w / 4, 0.5)] := rfl

/-- C6: for classes II and III every emitted position comes from a grid row
of index at most 1: rows past the first two are suppressed. -/
theorem crown_rows_only (c : RockClass) (w h s : ℚ)
    (hc : c = RockClass.II ∨ c = RockClass.III) (p : ℚ × ℚ)
    (hp : p ∈ boltLayout c w h s) :
    ∃ row col : ℕ, row ≤ 1 ∧ col < (gridCols w s).toNat ∧ p = gridPoint c w h s row col := by
  have hcI : c ≠ RockClass.I := by rcases hc with h1 | h1 <;> simp [h1]
  obtain ⟨row, col, _, hcol, hskip, hpe⟩ := mem_boltLayout_grid hcI hp
  exact ⟨row, col, hskip hc, hcol, hpe⟩

/-- Witness for C6: class II, width 4, height 2, spacing 1, at the grid
position of the first row and column. -/
theorem crown_rows_only_witness :
    ∃ row col : ℕ, row ≤ 1 ∧ col < (gridCols 4 1).toNat ∧
      gridPoint RockClass.II 4 2 1 0 0 = gridPoint RockClass.II 4 2 1 row col := by
  have h1 : gridRows RockClass.II 2 1 = 2 := by norm_num [gridRows, truncInt]
  have h2 : gridCols 4 1 = 4 := by norm_num [gridCols, truncInt]
  have h1n : (gridRows RockClass.II 2 1).toNat = 2 := by rw [h1]; rfl
  have h2n : (gridCols 4 1).toNat = 4 := by rw [h2]; rfl
  exact crown_rows_only RockClass.II 4 2 1 (Or.inl rfl) (gridPoint RockClass.II 4 2 1 0 0)
    (gridPoint_mem_boltLayout (by decide) 4 2 1 (by omega) (by omega) (fun _ => by omega))

/-- C7: for classes II through V with positive width, height and spacing, the
generated layout coincides with the spec's grid description (rows and columns
by flooring, positions (col + 0.5) width/cols and (row + 0.5) height/rows in
row-major order, with the class II/III row suppression). -/
theorem grid_layout_matches_spec (c : RockClass) (w h s : ℚ) (hc : c ≠ RockClass.I)
    (hw : 0 < w) (hh : 0 < h) (hs : 0 < s) :
    boltLayout c w h s = layoutFromSpec c w h s := by
  have h1 : truncInt (h / s) = ⌊h / s⌋ := truncInt_of_nonneg (le_of_lt (div_pos hh hs))
  have h2 : truncInt (w / s) = ⌊w / s⌋ := truncInt_of_nonneg (le_of_lt (div_pos hw hs))
  have hr : gridRows c h s = specRows c h s := by
    unfold gridRows specRows
    rw [h1]
  have hcols : gridCols w s = specCols w s := by
    unfold gridCols specCols
    rw [h2]
  unfold boltLayout layoutFromSpec gridPoint
  rw [if_neg hc]
  simp only [hr, hcols]

/-- Witness for C7: class III, width 5, height 3, spacing 1.2. -/
theorem grid_layout_matches_spec_witness :
    boltLayout RockClass.III 5 3 1.2 = layoutFromSpec RockClass.III 5 3 1.2 :=
  grid_layout_matches_spec RockClass.III 5 3 1.2 (by decide) (by norm_num) (by norm_num)
    (by norm_num)

/-- C8: for every class and positive width and height, with the per-class
spacing, no executed division has a zero divisor: the spacing is nonzero,
the column count is at least 3, and either the row count is at least 1 or
the grid loop emits nothing (so the division by rows never runs). -/
theorem no_zero_divisor (c : RockClass) (w h : ℚ) (hw : 0 < w) (hh : 0 < h) :
    bolt_spacing c ≠ 0 ∧ 3 ≤ gridCols w (bolt_spacing c) ∧
      (1 ≤ gridRows c h (bolt_spacing c) ∨ boltLayout c w h (bolt_spacing c) = []) := by
  refine ⟨by cases c <;> norm_num [bolt_spacing], le_max_left _ _, ?_⟩
  by_cases h1 : 1 ≤ gridRows c h (bolt_spacing c)
  · exact Or.inl h1
  · right
    have hcI : c ≠ RockClass.I := by
      intro hEq
      rw [hEq] at h1
      unfold gridRows at h1
      rw [if_neg (by decide)] at h1
      exact h1 (le_trans one_le_two (le_max_left 2 _))
    have h0 : (gridRows c h (bolt_spacing c)).toNat = 0 := by omega
    unfold boltLayout
    rw [if_neg hcI, h0]
    rfl

/-- Witness for C8: class IV with width 1 and height 1/2 (row count 0,
empty layout branch). -/
theorem no_zero_divisor_witness :
    bolt_spacing RockClass.IV ≠ 0 ∧ 3 ≤ gridCols 1 (bolt_spacing RockClass.IV) ∧
      (1 ≤ gridRows RockClass.IV (1 / 2) (bolt_spacing RockClass.IV) ∨
        boltLayout RockClass.IV 1 (1 / 2) (bolt_spacing RockClass.IV) = []) :=
  no_zero_divisor RockClass.IV 1 (1 / 2) (by norm_num) (by norm_num)

/-- C9: for every class and width and height in [1, 30], with the per-class
spacing, every generated position lies inside the cross-section:
x in [0, width] and y in [0, height]. -/
theorem layout_positions_in_bounds (c : RockClass) (w h : ℚ)
    (hw1 : 1 ≤ w) (hw2 : w ≤ 30) (hh1 : 1 ≤ h) (hh2 : h ≤ 30) (p : ℚ × ℚ)
    (hp : p ∈ boltLayout c w h (bolt_spacing c)) :
    0 ≤ p.1 ∧ p.1 ≤ w ∧ 0 ≤ p.2 ∧ p.2 ≤ h := by
  have hw0 : (0 : ℚ) ≤ w := by linarith
  have hh0 : (0 : ℚ) ≤ h := by linarith
  by_cases hcI : c = RockClass.I
  · subst hcI
    have hp3 : p = (w / 4, (0.5 : ℚ)) ∨ p = (w / 2, (0.5 : ℚ)) ∨ p = (3 * w / 4, (0.5 : ℚ)) := by
      simpa [boltLayout] using hp
    rcases hp3 with rfl | rfl | rfl <;>
      exact ⟨by simp; linarith, by simp; linarith, by norm_num, by simp; linarith⟩
  · obtain ⟨row, col, hrow, hcol, _, hpe⟩ := mem_boltLayout_grid hcI hp
    subst hpe
    obtain ⟨hx1, hx2⟩ := grid_coord_bounds w (gridCols w (bolt_spacing c)) col hcol hw0
    obtain ⟨hy1, hy2⟩ := grid_coord_bounds h (gridRows c h (bolt_spacing c)) row hrow hh0
    exact ⟨hx1, hx2, hy1, hy2⟩

/-- Witness for C9: class I, width 4, height 2, at position (1, 0.5). -/
theorem layout_positions_in_bounds_witness :
    0 ≤ ((1 : ℚ), (0.5 : ℚ)).1 ∧ ((1 : ℚ), (0.5 : ℚ)).1 ≤ 4 ∧
      0 ≤ ((1 : ℚ), (0.5 : ℚ)).2 ∧ ((1 : ℚ), (0.5 : ℚ)).2 ≤ 2 :=
  layout_positions_in_bounds RockClass.I 4 2 (by norm_num) (by norm_num) (by norm_num)
    (by norm_num) (1, 0.5) (by norm_num [boltLayout, List.mem_cons, Prod.ext_iff])

/-- C10: the rounding in bolts per row is round-half-to-even: at an exact
half it picks the even neighbour; in particular for class I with width 5
(spacing 2), round(5/2) = 2 and bolts per row is max(2, 2) = 2, not 3. -/
theorem bolts_per_row_rounds_half_to_even :
    (∀ n : ℤ, pyRound ((n : ℚ) + 1 / 2) = if n % 2 = 0 then n else n + 1) ∧
    pyRound ((5 : ℚ) / 2) = 2 ∧ bolts_per_row RockClass.I 5 = 2 := by
  refine ⟨fun n => ?_, by norm_num [pyRound], by norm_num [bolts_per_row, pyRound, bolt_spacing]⟩
  have hfl : ⌊(n : ℚ) + 1 / 2⌋ = n := by
    rw [add_comm, Int.floor_add_int]
    norm_num
  unfold pyRound
  rw [hfl]
  have hr : (n : ℚ) + 1 / 2 - (n : ℤ) = 1 / 2 := by ring
  rw [hr]
  norm_num
